import Mathlib

/-
Verification development for the ghidra-mcp repository.

The subject is the agentic tool-calling core: the Ollama chat loop in
core/chat.py (transport body parsing, fenced-JSON recovery, the round loop)
and the MCP tool manager in core/tools.py (catalogue building and tool-call
dispatch).  Python values parsed from JSON are modelled by the inductive
type JVal; Python dicts become ordered association lists with keep-position
overwrite, mirroring insertion-ordered dict semantics.

Deliberate modelling boundaries, none of which is exercised by any theorem:
numbers store a decimal mantissa/exponent pair (exact for equality-with-zero
truthiness, which is all the code ever asks of a number); the Python decoder
additionally accepts NaN/Infinity which are not modelled; str() rendering of
non-string values approximates Python float formatting; a truthy
non-iterable tool_calls value would raise TypeError in Python where the
model yields an empty iteration.
-/

/-- JSON values as produced by json.loads: null, booleans, numbers, strings,
arrays, and insertion-ordered objects. -/
inductive JVal where
  | null
  | bool (b : Bool)
  | num (mantissa : Int) (exp10 : Int)
  | str (s : String)
  | arr (items : List JVal)
  | obj (fields : List (String × JVal))
deriving Inhabited

/-- Python truthiness on JSON-derived values: None, False, 0, "", [], {}
are falsy, everything else truthy. -/
def jfalsy : JVal → Bool
  | .null => true
  | .bool b => !b
  | .num m _ => m == 0
  | .str s => s == ""
  | .arr items => items.isEmpty
  | .obj fields => fields.isEmpty

/-- Lookup in an insertion-ordered dict (first binding wins; inserts keep
at most one binding per key, so this is the dict lookup). -/
def dictLookup {α : Type} : List (String × α) → String → Option α
  | [], _ => none
  | (k, v) :: rest, key => if k == key then some v else dictLookup rest key

/-- Python dict assignment d[key] = v: overwrite in place if the key
exists, else append, preserving insertion order. -/
def dictInsert {α : Type} : List (String × α) → String → α → List (String × α)
  | [], key, v => [(key, v)]
  | (k, w) :: rest, key, v =>
    if k == key then (key, v) :: rest else (k, w) :: dictInsert rest key v

/-- dict-style field access on a JSON value: a lookup on objects, `none`
for every other shape (mirrors the dict branch of _get_attr_or_key in
core/tools.py, and .get on message dicts in core/chat.py). -/
def jget (v : JVal) (key : String) : Option JVal :=
  match v with
  | .obj fields => dictLookup fields key
  | _ => none

/-- JSON insignificant whitespace. -/
def isJsonWs (c : Char) : Bool :=
  c == ' ' || c == '\t' || c == '\n' || c == '\r'

def skipWs (cs : List Char) : List Char :=
  cs.dropWhile isJsonWs

def hexVal (c : Char) : Option Nat :=
  if '0' ≤ c ∧ c ≤ '9' then some (c.toNat - 48)
  else if 'a' ≤ c ∧ c ≤ 'f' then some (c.toNat - 87)
  else if 'A' ≤ c ∧ c ≤ 'F' then some (c.toNat - 55)
  else none

/-- Body of a JSON string literal after the opening quote: accumulates
characters until the closing quote, handling the standard escapes; raw
control characters below 0x20 are rejected as json.loads rejects them.
Surrogate pairing of adjacent escapes is not modelled. -/
def parseStringBody : List Char → List Char → Option (String × List Char)
  | acc, '"' :: rest => some (String.mk acc.reverse, rest)
  | acc, '\\' :: e :: rest =>
    if e == '"' then parseStringBody ('"' :: acc) rest
    else if e == '\\' then parseStringBody ('\\' :: acc) rest
    else if e == '/' then parseStringBody ('/' :: acc) rest
    else if e == 'b' then parseStringBody (Char.ofNat 8 :: acc) rest
    else if e == 'f' then parseStringBody (Char.ofNat 12 :: acc) rest
    else if e == 'n' then parseStringBody ('\n' :: acc) rest
    else if e == 'r' then parseStringBody ('\r' :: acc) rest
    else if e == 't' then parseStringBody ('\t' :: acc) rest
    else if e == 'u' then
      match rest with
      | a :: b :: c :: d :: rest2 =>
        match hexVal a, hexVal b, hexVal c, hexVal d with
        | some ha, some hb, some hc, some hd =>
          parseStringBody
            (Char.ofNat (((ha * 16 + hb) * 16 + hc) * 16 + hd) :: acc) rest2
        | _, _, _, _ => none
      | _ => none
    else none
  | acc, c :: rest =>
    if c.toNat < 32 then none else parseStringBody (c :: acc) rest
  | _, [] => none

def digitsToNat (ds : List Char) : Nat :=
  ds.foldl (fun acc c => acc * 10 + (c.toNat - 48)) 0

def takeDigits (cs : List Char) : List Char × List Char :=
  (cs.takeWhile Char.isDigit, cs.dropWhile Char.isDigit)

/-- Optional fraction part: returns the fraction digits ([] when there is
no '.') and the remaining input; a '.' with no digit is a parse error. -/
def parseFrac (cs : List Char) : Option (List Char × List Char) :=
  match cs with
  | '.' :: r =>
    let p := takeDigits r
    if p.1.isEmpty then none else some p
  | _ => some ([], cs)

/-- Optional exponent part: returns the signed decimal exponent (0 when
there is no e/E) and the remaining input. -/
def parseExp (cs : List Char) : Option (Int × List Char) :=
  match cs with
  | c :: r =>
    if c == 'e' || c == 'E' then
      let p : Int × List Char :=
        match r with
        | '+' :: rr => (1, rr)
        | '-' :: rr => (-1, rr)
        | _ => (1, r)
      let ds := takeDigits p.2
      if ds.1.isEmpty then none else some (p.1 * (digitsToNat ds.1 : Int), ds.2)
    else some (0, cs)
  | [] => some (0, [])

/-- JSON number: -? (0 | [1-9][0-9]*) frac? exp?, folded into a mantissa
(integer and fraction digits) and a decimal exponent. -/
def parseNumber (cs : List Char) : Option (JVal × List Char) :=
  let sp : Bool × List Char :=
    match cs with
    | '-' :: r => (true, r)
    | _ => (false, cs)
  let ip : Option (List Char × List Char) :=
    match sp.2 with
    | '0' :: r => some (['0'], r)
    | c :: _ => if c.isDigit then some (takeDigits sp.2) else none
    | [] => none
  match ip with
  | none => none
  | some (ids, r1) =>
    match parseFrac r1 with
    | none => none
    | some (fds, r2) =>
      match parseExp r2 with
      | none => none
      | some (e, r3) =>
        let mAbs : Int := (digitsToNat (ids ++ fds) : Int)
        let m : Int := if sp.1 then -mAbs else mAbs
        some (.num m (e - (fds.length : Int)), r3)

mutual

/-- One JSON value, fuel-bounded (the fuel only bounds recursion depth and
is chosen generously at the entry point). -/
def parseValue : Nat → List Char → Option (JVal × List Char)
  | 0, _ => none
  | fuel + 1, cs =>
    match skipWs cs with
    | 'n' :: 'u' :: 'l' :: 'l' :: r => some (.null, r)
    | 't' :: 'r' :: 'u' :: 'e' :: r => some (.bool true, r)
    | 'f' :: 'a' :: 'l' :: 's' :: 'e' :: r => some (.bool false, r)
    | c :: r =>
      if c == '"' then
        match parseStringBody [] r with
        | some (s, r1) => some (.str s, r1)
        | none => none
      else if c == Char.ofNat 123 then
        match skipWs r with
        | c2 :: r2 => if c2 == Char.ofNat 125 then some (.obj [], r2) else parseMembers fuel r []
        | [] => none
      else if c == '[' then
        match skipWs r with
        | c2 :: r2 => if c2 == ']' then some (.arr [], r2) else parseItems fuel r []
        | [] => none
      else if c == '-' || c.isDigit then parseNumber (c :: r)
      else none
    | [] => none

/-- Members of a JSON object after the opening brace (nonempty case):
"key": value pairs separated by commas, closed by a brace.  Duplicate keys
overwrite, as in the Python dict built by json.loads. -/
def parseMembers : Nat → List Char → List (String × JVal) → Option (JVal × List Char)
  | 0, _, _ => none
  | fuel + 1, cs, acc =>
    match skipWs cs with
    | c :: r =>
      if c == '"' then
        match parseStringBody [] r with
        | some (k, r1) =>
          match skipWs r1 with
          | ':' :: r2 =>
            match parseValue fuel r2 with
            | some (v, r3) =>
              let acc2 := dictInsert acc k v
              match skipWs r3 with
              | ',' :: r4 => parseMembers fuel r4 acc2
              | c2 :: r4 => if c2 == Char.ofNat 125 then some (.obj acc2, r4) else none
              | [] => none
            | none => none
          | _ => none
        | none => none
      else none
    | [] => none

/-- Items of a JSON array after the opening bracket (nonempty case). -/
def parseItems : Nat → List Char → List JVal → Option (JVal × List Char)
  | 0, _, _ => none
  | fuel + 1, cs, acc =>
    match parseValue fuel cs with
    | some (v, r1) =>
      match skipWs r1 with
      | ',' :: r2 => parseItems fuel r2 (acc ++ [v])
      | ']' :: r2 => some (.arr (acc ++ [v]), r2)
      | _ => none
    | none => none

end

/-- json.loads: parse one JSON document, allowing only whitespace around
it; `none` models a raised JSONDecodeError. -/
def jsonParse (s : String) : Option JVal :=
  match parseValue (2 * s.data.length + 2) s.data with
  | some (v, rest) => if (skipWs rest).isEmpty then some v else none
  | none => none

/-- The ASCII part of the character class Python str.strip removes. -/
def isPySpace (c : Char) : Bool :=
  c == ' ' || c == '\t' || c == '\n' || c == '\r' ||
  c == Char.ofNat 11 || c == Char.ofNat 12

/-- Python str.strip(). -/
def pyStrip (s : String) : String :=
  String.mk (((s.data.dropWhile isPySpace).reverse.dropWhile isPySpace).reverse)

/-- The line-boundary characters of Python str.splitlines (ASCII ones plus
NEL and the two Unicode separators); \r\n is treated as one boundary. -/
def isLineBreak (c : Char) : Bool :=
  c == '\n' || c == '\r' || c == Char.ofNat 11 || c == Char.ofNat 12 ||
  c == Char.ofNat 28 || c == Char.ofNat 29 || c == Char.ofNat 30 ||
  c == Char.ofNat 133 || c == Char.ofNat 8232 || c == Char.ofNat 8233

def splitLinesGo : List Char → List Char → List String
  | [], acc => if acc.isEmpty then [] else [String.mk acc.reverse]
  | '\r' :: '\n' :: rest, acc => String.mk acc.reverse :: splitLinesGo rest []
  | c :: rest, acc =>
    if isLineBreak c then String.mk acc.reverse :: splitLinesGo rest []
    else splitLinesGo rest (c :: acc)

/-- Python str.splitlines(): no trailing empty line for a trailing
terminator, [] for the empty string. -/
def splitLines (s : String) : List String :=
  splitLinesGo s.data []

/- ===== Transport shim: body handling of ChatOllama._chat_sync
   (core/chat.py lines 80-100) ===== -/

/-- The failure conditions of the transport body handling: the two
RuntimeError raises and a propagating json decode error. -/
inductive ChatError where
  | emptyResponse
  | unexpectedResponse (body : String)
  | jsonDecode (line : String)

/-- Strip a line and remove an SSE-style "data:" prefix, stripping again
(core/chat.py lines 93-98). -/
def cleanLine (l : String) : String :=
  let l1 := pyStrip l
  match l1.data with
  | 'd' :: 'a' :: 't' :: 'a' :: ':' :: rest => pyStrip (String.mk rest)
  | _ => l1

/-- The raw_lines filter: non-blank lines that are not the "[DONE]"
sentinel (core/chat.py lines 84-88). -/
def rawLinesOf (text : String) : List String :=
  (splitLines text).filter
    (fun l => !(pyStrip l == "") && !(pyStrip l == "[DONE]"))

/-- ChatOllama._chat_sync body handling (core/chat.py lines 80-100): strip
the body, fail on empty; keep non-blank non-sentinel lines, fail if none
remain; clean each line and json-parse only the last one. -/
def chatSync (body : String) : Except ChatError JVal :=
  let text := pyStrip body
  if text == "" then .error .emptyResponse
  else
    let rawLines := rawLinesOf text
    if rawLines.isEmpty then .error (.unexpectedResponse text)
    else
      let lastLine := (rawLines.map cleanLine).getLastD ""
      match jsonParse lastLine with
      | some v => .ok v
      | none => .error (.jsonDecode lastLine)

/- ===== Fenced-block recovery pass (core/chat.py lines 141-181) ===== -/

def btick : Char := Char.ofNat 96

/-- Find the first occurrence of a triple-backtick fence: returns the text
before it and the text after it. -/
def findFence : List Char → Option (List Char × List Char)
  | [] => none
  | c :: cs =>
    if c == btick then
      match cs with
      | d :: e :: rest =>
        if d == btick && e == btick then some ([], rest)
        else
          match findFence cs with
          | some (b, a) => some (c :: b, a)
          | none => none
      | _ =>
        match findFence cs with
        | some (b, a) => some (c :: b, a)
        | none => none
    else
      match findFence cs with
      | some (b, a) => some (c :: b, a)
      | none => none

/-- Consume an optional case-insensitive "json" language tag right after an
opening fence, mirroring the greedy (?:json)? of the recovery regex. -/
def stripJsonTag (cs : List Char) : List Char :=
  match cs with
  | a :: b :: c :: d :: rest =>
    if a.toLower == 'j' && b.toLower == 's' && c.toLower == 'o' && d.toLower == 'n'
    then rest else cs
  | _ => cs

def fenceInnersGo : Nat → List Char → List String
  | 0, _ => []
  | fuel + 1, cs =>
    match findFence cs with
    | none => []
    | some (_, afterOpen) =>
      match findFence (stripJsonTag afterOpen) with
      | none => []
      | some (inner, afterClose) => String.mk inner :: fenceInnersGo fuel afterClose

/-- The inner texts of the non-overlapping matches of the recovery regex
(three backticks, optional case-insensitive json tag, lazily up to the next
three backticks); the lazy inner group corresponds to taking the earliest
closing fence.  Leading whitespace consumed by the regex is kept here and
removed by the strip at the use site, which is equivalent. -/
def fenceInners (s : String) : List String :=
  fenceInnersGo (s.data.length + 1) s.data

/-- The JSON candidate of the recovery pass: the last fenced block inner
text if any fence matches, else the whole content, stripped
(core/chat.py lines 144-151). -/
def jsonCandidate (content : String) : String :=
  match fenceInners content with
  | [] => pyStrip content
  | ms => pyStrip (ms.getLastD "")

mutual

/-- _calls_from_obj (core/chat.py lines 156-172): a dict with both "name"
and "arguments" whose name is a known tool yields one synthesized call;
a list accumulates recursively; anything else yields nothing. -/
def callsFromObj (known : List String) : JVal → List JVal
  | .obj fields =>
    match dictLookup fields "name", dictLookup fields "arguments" with
    | some nameVal, some argVal =>
      match nameVal with
      | .str n =>
        if known.contains n then
          [JVal.obj [("function", JVal.obj
            [("name", JVal.str n),
             ("arguments", if jfalsy argVal then JVal.obj [] else argVal)])]]
        else []
      | _ => []
    | _, _ => []
  | .arr items => callsFromList known items
  | _ => []

def callsFromList (known : List String) : List JVal → List JVal
  | [] => []
  | v :: rest => callsFromObj known v ++ callsFromList known rest

end

/-- The recovery pass on a string content (core/chat.py lines 141-181):
parse the candidate; on parse failure or when no call is synthesized the
content is untouched and no calls are produced; otherwise the content is
cleared and the synthesized calls returned. -/
def recover (known : List String) (content : String) : String × List JVal :=
  match jsonParse (jsonCandidate content) with
  | none => (content, [])
  | some v =>
    let synthesized := callsFromObj known v
    if synthesized.isEmpty then (content, []) else ("", synthesized)

/- ===== ToolManager (core/tools.py) ===== -/

/-- A single quote character, used in the f-string error messages. -/
def squote : String := String.singleton (Char.ofNat 39)

mutual

/-- Python str() of a JSON-derived value, as used in the dispatcher's
f-strings: exact for strings (the only case any theorem touches); numeric
rendering approximates Python float formatting; containers render in
Python repr style. -/
def pyStr : JVal → String
  | .str s => s
  | v => pyRepr v

/-- Python repr() of a JSON-derived value (strings single-quoted without
escaping, an approximation never observed by a theorem). -/
def pyRepr : JVal → String
  | .null => "None"
  | .bool b => if b then "True" else "False"
  | .num m e => if e == 0 then toString m else toString m ++ "e" ++ toString e
  | .str s => squote ++ s ++ squote
  | .arr items => "[" ++ pyReprList items ++ "]"
  | .obj fields => "\x7b" ++ pyReprFields fields ++ "\x7d"

def pyReprList : List JVal → String
  | [] => ""
  | [v] => pyRepr v
  | v :: rest => pyRepr v ++ ", " ++ pyReprList rest

def pyReprFields : List (String × JVal) → String
  | [] => ""
  | [(k, v)] => squote ++ k ++ squote ++ ": " ++ pyRepr v
  | (k, v) :: rest => squote ++ k ++ squote ++ ": " ++ pyRepr v ++ ", " ++ pyReprFields rest

end

/-- One content block of an MCP CallToolResult: either a TextContent with
its text, or some other block carrying only its str() rendering. -/
inductive MCPContent where
  | text (s : String)
  | other (rep : String)

/-- The slice of mcp.types.CallToolResult the dispatcher reads. -/
structure CallToolResult where
  isError : Bool
  content : List MCPContent

def hexDigitChar (n : Nat) : Char :=
  if n < 10 then Char.ofNat (48 + n) else Char.ofNat (87 + (n - 10))

def hex4 (n : Nat) : String :=
  String.mk [hexDigitChar (n / 4096 % 16), hexDigitChar (n / 256 % 16),
             hexDigitChar (n / 16 % 16), hexDigitChar (n % 16)]

/-- json.dumps escaping of one character with the default ensure_ascii. -/
def jsonEscapeChar (c : Char) : String :=
  if c == '"' then "\\\""
  else if c == '\\' then "\\\\"
  else if c == '\n' then "\\n"
  else if c == '\t' then "\\t"
  else if c == '\r' then "\\r"
  else if c == Char.ofNat 8 then "\\b"
  else if c == Char.ofNat 12 then "\\f"
  else if c.toNat < 32 then "\\u" ++ hex4 c.toNat
  else if c.toNat < 127 then String.singleton c
  else if c.toNat < 65536 then "\\u" ++ hex4 c.toNat
  else
    "\\u" ++ hex4 (55296 + (c.toNat - 65536) / 1024) ++
    "\\u" ++ hex4 (56320 + (c.toNat - 65536) % 1024)

def jsonQuote (s : String) : String :=
  "\"" ++ String.join (s.data.map jsonEscapeChar) ++ "\""

/-- str() of a content block as json.dumps(default=str) renders it; the
text case is unreachable in the fallback (a TextContent would have fed
text_parts) and is given its text. -/
def contentItemStr : MCPContent → String
  | .text s => s
  | .other rep => rep

/-- json.dumps of the safe_result fallback dict
(core/tools.py lines 164-171). -/
def dumpSafeResult (res : Option CallToolResult) : String :=
  let isErr := match res with | some r => r.isError | none => false
  let items := match res with | some r => r.content | none => []
  "\x7b\"isError\": " ++ (if isErr then "true" else "false") ++
    ", \"content\": [" ++
    String.intercalate ", " (items.map (fun i => jsonQuote (contentItemStr i))) ++
    "]\x7d"

/-- One entry of the conversation history: a message dict with its optional
keys (thinking and tool_calls on assistant turns, tool_name on tool turns). -/
structure Turn where
  role : String
  content : JVal
  thinking : Option JVal := none
  toolCalls : Option JVal := none
  toolName : Option JVal := none
deriving Inhabited

def unknownToolMsg (nameStr : String) : String :=
  "Error: no MCP client exposes tool " ++ squote ++ nameStr ++ squote ++ "."

def execErrorMsg (nameStr excMsg : String) : String :=
  "Error executing tool " ++ squote ++ nameStr ++ squote ++ ": " ++ excMsg

/-- The body of one iteration of ToolManager.execute_tool_calls
(core/tools.py lines 112-179) on a parsed-JSON call entry: `none` when the
entry is skipped (no function member, or falsy tool name), otherwise the
single tool-role message it appends.  callTool models
client.session().call_tool for the client identified by the mapped name:
an Except.error is a raised exception, Except.ok the (possibly None)
CallToolResult. -/
def execOne (toolClients : List (String × String))
    (callTool : String → String → JVal → Except String (Option CallToolResult))
    (call : JVal) : Option Turn :=
  match jget call "function" with
  | none => none
  | some fn =>
    match jget fn "name" with
    | none => none
    | some nameVal =>
      if jfalsy nameVal then none
      else
        let args0 : JVal :=
          match jget fn "arguments" with
          | some a => if jfalsy a then JVal.obj [] else a
          | none => JVal.obj []
        let args : JVal :=
          match args0 with
          | .obj _ => args0
          | .str s =>
            match jsonParse s with
            | some v => v
            | none => JVal.obj [("raw", JVal.str s)]
          | _ => JVal.obj [("raw", JVal.str (pyStr args0))]
        let clientOpt : Option String :=
          match nameVal with
          | .str n => dictLookup toolClients n
          | _ => none
        match clientOpt with
        | none =>
          some { role := "tool", toolName := some nameVal,
                 content := JVal.str (unknownToolMsg (pyStr nameVal)) }
        | some client =>
          let nameStr := match nameVal with | .str n => n | _ => ""
          match callTool client nameStr args with
          | .error exc =>
            some { role := "tool", toolName := some nameVal,
                   content := JVal.str (execErrorMsg (pyStr nameVal) exc) }
          | .ok res =>
            let blocks : List MCPContent :=
              match res with | some r => r.content | none => []
            let textParts := blocks.filterMap
              (fun i => match i with | .text s => some s | .other _ => none)
            let contentStr :=
              if textParts.isEmpty then dumpSafeResult res
              else String.intercalate "\n" textParts
            some { role := "tool", toolName := some nameVal,
                   content := JVal.str contentStr }

/-- The tool_messages accumulator loop of execute_tool_calls. -/
def executeToolCallsGo (toolClients : List (String × String))
    (callTool : String → String → JVal → Except String (Option CallToolResult)) :
    List JVal → List Turn → List Turn
  | [], acc => acc
  | call :: rest, acc =>
    match execOne toolClients callTool call with
    | none => executeToolCallsGo toolClients callTool rest acc
    | some msg => executeToolCallsGo toolClients callTool rest (acc ++ [msg])

/-- ToolManager.execute_tool_calls (core/tools.py lines 76-181): the
ordered list of tool-role messages for a list of call entries. -/
def executeToolCalls (toolClients : List (String × String))
    (callTool : String → String → JVal → Except String (Option CallToolResult))
    (calls : List JVal) : List Turn :=
  executeToolCallsGo toolClients callTool calls []

/- ===== ToolManager.build_ollama_tools (core/tools.py lines 23-74) ===== -/

/-- The slice of an MCP Tool the registry reads. -/
structure MCPTool where
  name : String
  description : Option String
  inputSchema : Option JVal

/-- The permissive fallback parameter schema
(core/tools.py lines 54-58). -/
def defaultSchema : JVal :=
  JVal.obj [("type", JVal.str "object"), ("properties", JVal.obj []),
            ("additionalProperties", JVal.bool true)]

/-- The Ollama tool descriptor built for one MCP tool
(core/tools.py lines 60-69). -/
def toolSchema (t : MCPTool) : JVal :=
  JVal.obj [("type", JVal.str "function"),
    ("function", JVal.obj
      [("name", JVal.str t.name),
       ("description", JVal.str (t.description.getD "")),
       ("parameters",
         match t.inputSchema with
         | some sc => if jfalsy sc then defaultSchema else sc
         | none => defaultSchema)])]

/-- The inner loop over one provider's listed tools: append each schema and
assign tool_clients[tool.name] = client (overwriting on collision). -/
def addProviderTools (client : String) :
    List MCPTool → List JVal × List (String × String) → List JVal × List (String × String)
  | [], acc => acc
  | t :: ts, acc =>
    addProviderTools client ts (acc.1 ++ [toolSchema t], dictInsert acc.2 t.name client)

def buildGo : List (String × List MCPTool) → List JVal × List (String × String) →
    List JVal × List (String × String)
  | [], acc => acc
  | (c, ts) :: ps, acc => buildGo ps (addProviderTools c ts acc)

/-- ToolManager.build_ollama_tools: fold every provider's advertised tools
(providers listed in clients-dict order, each with its tool listing) into
the schema list and the name-to-client ownership map. -/
def buildOllamaTools (providers : List (String × List MCPTool)) :
    List JVal × List (String × String) :=
  buildGo providers ([], [])

/- ===== Agent loop: ChatOllama.run (core/chat.py lines 106-205) ===== -/

/-- raw.get("message", {}) if isinstance(raw, dict) else {}
(core/chat.py line 131).  A present-but-non-dict message would make the
subsequent .get calls raise in Python; the model reads its fields as
absent instead, a divergence confined to that crash case. -/
def extractMessage (raw : JVal) : JVal :=
  match raw with
  | .obj _ => (jget raw "message").getD (JVal.obj [])
  | _ => JVal.obj []

/-- value-or-default with Python truthiness, modelling the
message.get("...") or default idiom (core/chat.py lines 133-135). -/
def orDefault (v : Option JVal) (d : JVal) : JVal :=
  match v with
  | some x => if jfalsy x then d else x
  | none => d

def normContent (msg : JVal) : JVal := orDefault (jget msg "content") (JVal.str "")

def normThinking (msg : JVal) : JVal := orDefault (jget msg "thinking") (JVal.str "")

def normToolCalls (msg : JVal) : JVal := orDefault (jget msg "tool_calls") (JVal.arr [])

/-- The content/tool_calls pair after the recovery pass (core/chat.py
lines 141-181): recovery runs only when tool_calls is falsy and content is
a string, and rewrites the pair only when it synthesized at least one
call. -/
def recoveredPair (known : List String) (content toolCalls : JVal) : JVal × JVal :=
  if jfalsy toolCalls then
    match content with
    | .str s =>
      if ((recover known s).2).isEmpty then (content, toolCalls)
      else (JVal.str (recover known s).1, JVal.arr (recover known s).2)
    | _ => (content, toolCalls)
  else (content, toolCalls)

/-- One round's reply handling (core/chat.py lines 130-192): normalize the
message fields, apply the recovery pass, and build the assistant turn that
is appended (thinking and tool_calls keys present only when truthy).
Returns the turn together with the final tool_calls value that decides
whether the loop continues. -/
def stepRound (known : List String) (raw : JVal) : Turn × JVal :=
  ({ role := "assistant",
     content := (recoveredPair known (normContent (extractMessage raw))
       (normToolCalls (extractMessage raw))).1,
     thinking :=
       if jfalsy (normThinking (extractMessage raw)) then none
       else some (normThinking (extractMessage raw)),
     toolCalls :=
       if jfalsy (recoveredPair known (normContent (extractMessage raw))
           (normToolCalls (extractMessage raw))).2 then none
       else some (recoveredPair known (normContent (extractMessage raw))
         (normToolCalls (extractMessage raw))).2 },
   (recoveredPair known (normContent (extractMessage raw))
     (normToolCalls (extractMessage raw))).2)

/-- Python iteration over the truthy tool_calls value: lists yield their
items, dicts their keys, strings their characters.  (A truthy number or
True would raise TypeError in Python; the model yields nothing, a
divergence confined to that crash case.) -/
def jiterList (v : JVal) : List JVal :=
  match v with
  | .arr items => items
  | .obj fields => fields.map (fun kv => JVal.str kv.1)
  | .str s => s.data.map (fun c => JVal.str (String.singleton c))
  | _ => []

/-- The system message installed by ChatOllama.__init__
(core/chat.py lines 35-52). -/
def systemPrompt : String :=
  "You are an assistant working with a reverse engineer in Ghidra. " ++
  "You have access to MCP tools that can query and modify the loaded " ++
  "program (for example: listing functions, decompiling, renaming " ++
  "functions or variables, setting comments, etc.). " ++
  "When the user asks you to perform an action that can be done with " ++
  "these tools, you should CALL THE TOOLS directly and continue " ++
  "calling additional tools as needed to accomplish the task, rather " ++
  "than only describing JSON examples of tool calls. " ++
  "After you run tools, summarize what you did and the key results in " ++
  "clear natural language. Do not show raw tool JSON back to the user " ++
  "unless they explicitly ask for it."

def systemTurn : Turn := { role := "system", content := JVal.str systemPrompt }

/-- The conversation log of a newly constructed ChatOllama. -/
def initMessages : List Turn := [systemTurn]

def userTurn (q : String) : Turn := { role := "user", content := JVal.str q }

/-- The while-true loop of ChatOllama.run, fuel-bounded (the source has no
round cap; `none` means the fuel ran out with the loop still going).
backend models the parsed reply of each round's _chat call; toolClients is
the cached _tool_clients ownership map, whose keys are the known tool
names used by the recovery pass.  Returns the final content, the message
log, and the number of rounds performed. -/
def runLoop (toolClients : List (String × String))
    (callTool : String → String → JVal → Except String (Option CallToolResult))
    (backend : Nat → JVal) :
    Nat → Nat → List Turn → Option (JVal × List Turn × Nat)
  | 0, _, _ => none
  | fuel + 1, round, msgs =>
    let st := stepRound (toolClients.map Prod.fst) (backend round)
    if jfalsy st.2 then some (st.1.content, msgs ++ [st.1], round + 1)
    else
      runLoop toolClients callTool backend fuel (round + 1)
        ((msgs ++ [st.1]) ++ executeToolCalls toolClients callTool (jiterList st.2))

/-- ChatOllama.run for a single query on a fresh agent: append the user
turn to the initial log and run the loop. -/
def run (toolClients : List (String × String))
    (callTool : String → String → JVal → Except String (Option CallToolResult))
    (backend : Nat → JVal) (fuel : Nat) (query : String) :
    Option (JVal × List Turn × Nat) :=
  runLoop toolClients callTool backend fuel 0 (initMessages ++ [userTurn query])

/- ===== Helper lemmas (shared) ===== -/

theorem getLastD_map_ne_nil (f : String → String) (l : List String)
    (d1 d2 : String) (h : l ≠ []) :
    (l.map f).getLastD d1 = f (l.getLastD d2) := by
  have h1 := List.getLast?_eq_getLast l h
  simp [List.getLastD_eq_getLast?, List.getLast?_map, h1]

theorem orDefault_eq_of_falsy {v : Option JVal} {d : JVal}
    (h : jfalsy (orDefault v d) = true) : orDefault v d = d := by
  cases v with
  | none => rfl
  | some x =>
    cases hjx : jfalsy x with
    | true => simp [orDefault, hjx]
    | false =>
      simp only [orDefault, hjx] at h
      simp at h
      rw [hjx] at h
      exact absurd h (by simp)

theorem normToolCalls_eq_of_falsy {m : JVal}
    (h : jfalsy (normToolCalls m) = true) : normToolCalls m = JVal.arr [] :=
  orDefault_eq_of_falsy h

theorem recover_eq (known : List String) (s : String) :
    recover known s = (s, []) ∨
    ((recover known s).1 = "" ∧ ((recover known s).2).isEmpty = false) := by
  unfold recover
  cases jsonParse (jsonCandidate s) with
  | none => exact Or.inl rfl
  | some v =>
    dsimp only
    by_cases he : (callsFromObj known v).isEmpty
    · rw [if_pos he]; exact Or.inl rfl
    · rw [if_neg he]
      refine Or.inr ⟨rfl, ?_⟩
      simpa using he

theorem recover_of_empty {known : List String} {s : String}
    (h : ((recover known s).2).isEmpty = true) : recover known s = (s, []) := by
  rcases recover_eq known s with h1 | ⟨_, h2⟩
  · exact h1
  · exact absurd (h.symm.trans h2) (by simp)

theorem recover_cleared {known : List String} {s : String}
    (h : ((recover known s).2).isEmpty = false) : (recover known s).1 = "" := by
  rcases recover_eq known s with h1 | ⟨h2, _⟩
  · rw [h1] at h; simp at h
  · exact h2

/- ===== C2 / C7: transport shim ===== -/

/-- C2: for a raw HTTP body made of several newline-separated JSON
objects (possibly with SSE data: prefixes and a [DONE] sentinel), the
transport helper returns the JSON-parsed value of exactly the last
remaining non-empty non-sentinel line, with the data: prefix stripped by
cleanLine before parsing. -/
theorem chatSync_parses_last_line (body : String) (v : JVal)
    (h0 : pyStrip body ≠ "")
    (h1 : rawLinesOf (pyStrip body) ≠ [])
    (h2 : jsonParse (cleanLine ((rawLinesOf (pyStrip body)).getLastD "")) = some v) :
    chatSync body = Except.ok v := by
  unfold chatSync
  rw [if_neg (by simp [h0])]
  rw [if_neg (by simp [List.isEmpty_iff, h1])]
  dsimp only
  rw [getLastD_map_ne_nil cleanLine _ "" "" h1, h2]

/-- C2 witness: a three-object body with SSE framing and a [DONE]
sentinel; the parsed value is that of the third object. -/
theorem chatSync_parses_last_line_witness :
    chatSync "data: \x7b\"a\": 1\x7d\ndata: \x7b\"a\": 2\x7d\n\ndata: \x7b\"a\": 3\x7d\n[DONE]\n" =
      Except.ok (JVal.obj [("a", JVal.num 3 0)]) :=
  chatSync_parses_last_line
    "data: \x7b\"a\": 1\x7d\ndata: \x7b\"a\": 2\x7d\n\ndata: \x7b\"a\": 3\x7d\n[DONE]\n"
    (JVal.obj [("a", JVal.num 3 0)]) (by decide) (by decide) rfl

/-- C7: an HTTP 200 body that is empty after stripping makes the transport
helper fail with the empty-response condition (the RuntimeError raised
before any JSON decoding is attempted). -/
theorem chatSync_empty_body (body : String) (h : pyStrip body = "") :
    chatSync body = Except.error ChatError.emptyResponse := by
  unfold chatSync
  rw [if_pos (by simp [h])]

/-- C7 witness: a whitespace-only body. -/
theorem chatSync_empty_body_witness :
    chatSync "   \n\t  " = Except.error ChatError.emptyResponse :=
  chatSync_empty_body "   \n\t  " rfl

/- ===== C1 / C3: recovery pass ===== -/

/-- C1: when the structured tool_calls field is empty and the content is a
string containing two or more fenced code blocks, the recovery candidate
is exactly the last fenced block's stripped inner text, and if that
candidate fails to parse or yields no known-tool call of the
name/arguments shape, no call is synthesized and the recorded content and
tool_calls are left unchanged. -/
theorem recovery_last_fence_failure_preserves
    (known : List String) (raw : JVal) (s : String)
    (hc : normContent (extractMessage raw) = JVal.str s)
    (htc : jfalsy (normToolCalls (extractMessage raw)) = true)
    (hfence : 2 ≤ (fenceInners s).length)
    (hfail : jsonParse (jsonCandidate s) = none ∨
      ∀ v, jsonParse (jsonCandidate s) = some v → callsFromObj known v = []) :
    jsonCandidate s = pyStrip ((fenceInners s).getLastD "") ∧
    recover known s = (s, []) ∧
    (stepRound known raw).1.content = JVal.str s ∧
    (stepRound known raw).2 = JVal.arr [] := by
  have hrec : recover known s = (s, []) := by
    unfold recover
    rcases hfail with h | h
    · rw [h]
    · cases hp : jsonParse (jsonCandidate s) with
      | none => rfl
      | some v => dsimp only; rw [h v hp]; rfl
  have hcand : jsonCandidate s = pyStrip ((fenceInners s).getLastD "") := by
    unfold jsonCandidate
    cases hf : fenceInners s with
    | nil => rw [hf] at hfence; simp at hfence
    | cons a l => rfl
  have htc0 : normToolCalls (extractMessage raw) = JVal.arr [] :=
    normToolCalls_eq_of_falsy htc
  have hpair : recoveredPair known (JVal.str s) (JVal.arr []) = (JVal.str s, JVal.arr []) := by
    simp [recoveredPair, hrec]
  refine ⟨hcand, hrec, ?_, ?_⟩
  · unfold stepRound
    rw [hc, htc0, hpair]
  · unfold stepRound
    rw [hc, htc0, hpair]

def fenceSample : String :=
  "```json\n\x7b\"name\": \"t\", \"arguments\": \x7b\x7d\x7d\n```\ntext\n```json\nnot json\n```"

def fenceSampleRaw : JVal :=
  JVal.obj [("message", JVal.obj [("content", JVal.str fenceSample)])]

/-- C1 witness: two fenced blocks, the first a well-formed known-tool call
and the last malformed; only the last is taken as the candidate, it fails
to parse, and the content survives unchanged with no synthesized call. -/
theorem recovery_last_fence_failure_preserves_witness :
    jsonCandidate fenceSample = pyStrip ((fenceInners fenceSample).getLastD "") ∧
    recover ["t"] fenceSample = (fenceSample, []) ∧
    (stepRound ["t"] fenceSampleRaw).1.content = JVal.str fenceSample ∧
    (stepRound ["t"] fenceSampleRaw).2 = JVal.arr [] :=
  recovery_last_fence_failure_preserves ["t"] fenceSampleRaw fenceSample rfl rfl
    (by decide) (Or.inl rfl)

/-- C3: whenever the recovery pass synthesizes at least one call from the
content of a reply whose structured tool_calls field is empty, the
recorded assistant turn's content is the empty string. -/
theorem recovery_clears_content
    (known : List String) (raw : JVal) (s : String)
    (hc : normContent (extractMessage raw) = JVal.str s)
    (htc : jfalsy (normToolCalls (extractMessage raw)) = true)
    (hsynth : ((recover known s).2).isEmpty = false) :
    (stepRound known raw).1.content = JVal.str "" ∧
    (stepRound known raw).1.role = "assistant" := by
  have h1 : (recover known s).1 = "" := recover_cleared hsynth
  have htc0 : normToolCalls (extractMessage raw) = JVal.arr [] :=
    normToolCalls_eq_of_falsy htc
  have hpair : (recoveredPair known (JVal.str s) (JVal.arr [])).1 = JVal.str "" := by
    simp [recoveredPair, hsynth, h1, jfalsy]
  constructor
  · unfold stepRound
    rw [hc, htc0]
    exact hpair
  · rfl

def clearSample : String :=
  "Here is the call:\n```json\n\x7b\"name\": \"t\", \"arguments\": \x7b\x7d\x7d\n```"

def clearSampleRaw : JVal :=
  JVal.obj [("message", JVal.obj [("content", JVal.str clearSample)])]

/-- C3 witness: non-empty prose around a fenced known-tool call; recovery
synthesizes the call and the recorded content is cleared to "". -/
theorem recovery_clears_content_witness :
    (stepRound ["t"] clearSampleRaw).1.content = JVal.str "" ∧
    (stepRound ["t"] clearSampleRaw).1.role = "assistant" :=
  recovery_clears_content ["t"] clearSampleRaw clearSample rfl rfl rfl

/- ===== C4 / C5 / C10: dispatcher ===== -/

theorem executeToolCallsGo_acc (tc : List (String × String))
    (ct : String → String → JVal → Except String (Option CallToolResult)) :
    ∀ (calls : List JVal) (acc : List Turn),
      executeToolCallsGo tc ct calls acc = acc ++ executeToolCallsGo tc ct calls []
  | [], acc => by simp [executeToolCallsGo]
  | call :: rest, acc => by
    unfold executeToolCallsGo
    cases h : execOne tc ct call with
    | none => exact executeToolCallsGo_acc tc ct rest acc
    | some msg =>
      dsimp only
      rw [executeToolCallsGo_acc tc ct rest (acc ++ [msg]),
        executeToolCallsGo_acc tc ct rest ([] ++ [msg])]
      simp

/-- C5: the dispatcher's output is the in-order image of the per-request
handler over the input list, so the result of an earlier request always
precedes the result of a later one, whatever the individual outcomes
(skips, unknown-tool errors, raised exceptions, successes). -/
theorem execute_tool_calls_preserves_order (tc : List (String × String))
    (ct : String → String → JVal → Except String (Option CallToolResult))
    (calls : List JVal) :
    executeToolCalls tc ct calls = calls.filterMap (execOne tc ct) := by
  induction calls with
  | nil => rfl
  | cons call rest ih =>
    show executeToolCallsGo tc ct (call :: rest) [] = _
    unfold executeToolCallsGo
    cases h : execOne tc ct call with
    | none => rw [List.filterMap_cons_none h]; exact ih
    | some msg =>
      dsimp only
      rw [List.filterMap_cons_some h, executeToolCallsGo_acc tc ct rest ([] ++ [msg])]
      simpa using ih

/-- C4: a call entry naming a tool absent from the ownership map produces
exactly one tool-role result whose text says no MCP client exposes that
tool, and the dispatcher (a total function, so nothing is raised)
continues with the remaining entries. -/
theorem unknown_tool_error_result (tc : List (String × String))
    (ct : String → String → JVal → Except String (Option CallToolResult))
    (call : JVal) (rest : List JVal) (fn : JVal) (n : String)
    (hfn : jget call "function" = some fn)
    (hname : jget fn "name" = some (JVal.str n))
    (hne : n ≠ "")
    (hmiss : dictLookup tc n = none) :
    executeToolCalls tc ct (call :: rest) =
      { role := "tool", content := JVal.str (unknownToolMsg n),
        toolName := some (JVal.str n) } :: executeToolCalls tc ct rest := by
  have hexec : execOne tc ct call =
      some { role := "tool", content := JVal.str (unknownToolMsg n),
             toolName := some (JVal.str n) } := by
    unfold execOne
    rw [hfn]; dsimp only
    rw [hname]; dsimp only
    rw [if_neg (by simp [jfalsy, hne])]
    rw [hmiss]
    rfl
  show executeToolCallsGo tc ct (call :: rest) [] = _
  unfold executeToolCallsGo
  rw [hexec]
  dsimp only
  rw [executeToolCallsGo_acc tc ct rest ([] ++ [_])]
  simp [executeToolCalls]

def sampleClients : List (String × String) := [("t", "c")]

def okCallTool : String → String → JVal → Except String (Option CallToolResult) :=
  fun _ _ _ => Except.ok (some { isError := false, content := [MCPContent.text "ok"] })

def unknownCall : JVal :=
  JVal.obj [("function", JVal.obj [("name", JVal.str "mystery"),
    ("arguments", JVal.obj [])])]

/-- C4 witness: dispatching a single request for an unlisted tool yields
exactly the one error-text result. -/
theorem unknown_tool_error_result_witness :
    executeToolCalls sampleClients okCallTool [unknownCall] =
      [{ role := "tool", content := JVal.str (unknownToolMsg "mystery"),
         toolName := some (JVal.str "mystery") }] := by
  have h := unknown_tool_error_result sampleClients okCallTool unknownCall []
    (JVal.obj [("name", JVal.str "mystery"), ("arguments", JVal.obj [])]) "mystery"
    rfl rfl (by decide) rfl
  simpa using h

/-- C10: a call entry with no function member, or whose function has a
missing or empty name, contributes no result at all and the dispatcher
continues with the remaining entries (so the output can be strictly
shorter than the input). -/
theorem malformed_call_skipped (tc : List (String × String))
    (ct : String → String → JVal → Except String (Option CallToolResult))
    (call : JVal) (rest : List JVal)
    (h : jget call "function" = none ∨
      ∃ fn, jget call "function" = some fn ∧
        (jget fn "name" = none ∨ jget fn "name" = some (JVal.str ""))) :
    executeToolCalls tc ct (call :: rest) = executeToolCalls tc ct rest := by
  have hexec : execOne tc ct call = none := by
    rcases h with h | ⟨fn, hfn, h2⟩
    · simp [execOne, h]
    · rcases h2 with h2 | h2 <;> simp [execOne, hfn, h2, jfalsy]
  show executeToolCallsGo tc ct (call :: rest) [] = _
  unfold executeToolCallsGo
  rw [hexec]
  rfl

def emptyNameCall : JVal :=
  JVal.obj [("function", JVal.obj [("name", JVal.str "")])]

def goodCall : JVal :=
  JVal.obj [("function", JVal.obj [("name", JVal.str "t"),
    ("arguments", JVal.obj [])])]

/-- C10 witness: an empty-name entry is dropped while the following
well-formed entry is still dispatched, making the output strictly shorter
than the input. -/
theorem malformed_call_skipped_witness :
    executeToolCalls sampleClients okCallTool [emptyNameCall, goodCall] =
      executeToolCalls sampleClients okCallTool [goodCall] ∧
    (executeToolCalls sampleClients okCallTool [emptyNameCall, goodCall]).length = 1 := by
  constructor
  · exact malformed_call_skipped sampleClients okCallTool emptyNameCall [goodCall]
      (Or.inr ⟨JVal.obj [("name", JVal.str "")], rfl, Or.inr rfl⟩)
  · rfl

/- ===== C8: catalogue building, last provider wins ===== -/

theorem dictLookup_insert_self {α : Type} (d : List (String × α)) (k : String) (v : α) :
    dictLookup (dictInsert d k v) k = some v := by
  induction d with
  | nil => simp [dictInsert, dictLookup]
  | cons p rest ih =>
    obtain ⟨k1, w⟩ := p
    by_cases h : (k1 == k) = true
    · simp [dictInsert, dictLookup, h]
    · simp only [dictInsert, h, if_false, Bool.false_eq_true, if_neg]
      simp [dictLookup, h, ih]

theorem dictLookup_insert_other {α : Type} (d : List (String × α)) (k k2 : String)
    (v : α) (h : k2 ≠ k) :
    dictLookup (dictInsert d k v) k2 = dictLookup d k2 := by
  induction d with
  | nil => simp [dictInsert, dictLookup, beq_iff_eq, Ne.symm h]
  | cons p rest ih =>
    obtain ⟨k1, w⟩ := p
    by_cases h1 : (k1 == k) = true
    · have hk1 : k1 = k := by simpa [beq_iff_eq] using h1
      simp [dictInsert, h1, dictLookup, beq_iff_eq, hk1, Ne.symm h]
    · simp [dictInsert, h1, dictLookup, ih]

theorem addProviderTools_lookup_not_mem (client : String) :
    ∀ (ts : List MCPTool) (acc : List JVal × List (String × String)) (t : String),
      t ∉ ts.map MCPTool.name →
      dictLookup (addProviderTools client ts acc).2 t = dictLookup acc.2 t
  | [], acc, t, _ => rfl
  | tool :: rest, acc, t, h => by
    have h1 : t ∉ rest.map MCPTool.name := by
      simp only [List.map_cons, List.mem_cons, not_or] at h
      exact h.2
    have h2 : t ≠ tool.name := by
      simp only [List.map_cons, List.mem_cons, not_or] at h
      exact h.1
    unfold addProviderTools
    rw [addProviderTools_lookup_not_mem client rest _ t h1]
    exact dictLookup_insert_other acc.2 tool.name t client h2

theorem addProviderTools_lookup_mem (client : String) :
    ∀ (ts : List MCPTool) (acc : List JVal × List (String × String)) (t : String),
      t ∈ ts.map MCPTool.name →
      dictLookup (addProviderTools client ts acc).2 t = some client
  | [], _, t, h => by simp at h
  | tool :: rest, acc, t, h => by
    by_cases hmem : t ∈ rest.map MCPTool.name
    · exact addProviderTools_lookup_mem client rest _ t hmem
    · have ht : t = tool.name := by
        rcases (by simpa [List.map_cons] using h : t = tool.name ∨ t ∈ rest.map MCPTool.name) with h1 | h1
        · exact h1
        · exact absurd h1 hmem
      unfold addProviderTools
      rw [addProviderTools_lookup_not_mem client rest _ t hmem, ht]
      exact dictLookup_insert_self acc.2 tool.name client

theorem buildGo_append (xs ys : List (String × List MCPTool)) :
    ∀ acc, buildGo (xs ++ ys) acc = buildGo ys (buildGo xs acc) := by
  induction xs with
  | nil => intro acc; rfl
  | cons p rest ih =>
    intro acc
    obtain ⟨c, ts⟩ := p
    simp only [List.cons_append, buildGo]
    exact ih _

theorem buildGo_lookup_not_mem (t : String) :
    ∀ (qs : List (String × List MCPTool)) (acc : List JVal × List (String × String)),
      (∀ q ∈ qs, t ∉ q.2.map MCPTool.name) →
      dictLookup (buildGo qs acc).2 t = dictLookup acc.2 t
  | [], _, _ => rfl
  | q :: rest, acc, h => by
    obtain ⟨c, ts⟩ := q
    have h1 : t ∉ ts.map MCPTool.name := h (c, ts) (by simp)
    have h2 : ∀ q ∈ rest, t ∉ q.2.map MCPTool.name := fun q hq => h q (by simp [hq])
    simp only [buildGo]
    rw [buildGo_lookup_not_mem t rest _ h2]
    exact addProviderTools_lookup_not_mem c ts acc t h1

/-- C8: when an earlier provider and a later provider both advertise a tool
of the same name, catalogue building completes (it is a total function, so
it cannot crash) and the ownership map sends that name to the provider
registered last, so dispatch of that name resolves to the last-registered
provider. -/
theorem collision_last_provider_wins
    (ps qs : List (String × List MCPTool)) (c : String) (ts : List MCPTool)
    (t : String) (c0 : String) (ts0 : List MCPTool)
    (hcol : (c0, ts0) ∈ ps) (ht0 : t ∈ ts0.map MCPTool.name)
    (ht : t ∈ ts.map MCPTool.name)
    (hafter : ∀ q ∈ qs, t ∉ q.2.map MCPTool.name) :
    dictLookup (buildOllamaTools (ps ++ (c, ts) :: qs)).2 t = some c := by
  unfold buildOllamaTools
  rw [buildGo_append ps ((c, ts) :: qs) ([], [])]
  simp only [buildGo]
  rw [buildGo_lookup_not_mem t qs _ hafter]
  exact addProviderTools_lookup_mem c ts _ t ht

def toolT : MCPTool := { name := "t", description := none, inputSchema := none }

/-- C8 witness: providers A then B both list tool "t"; the ownership map
resolves "t" to B. -/
theorem collision_last_provider_wins_witness :
    dictLookup (buildOllamaTools [("A", [toolT]), ("B", [toolT])]).2 "t" = some "B" := by
  have h := collision_last_provider_wins [("A", [toolT])] [] "B" [toolT] "t" "A" [toolT]
    (by simp) (by simp [toolT]) (by simp [toolT]) (by simp)
  simpa using h

/- ===== C6 / C9: agent loop ===== -/

theorem stepRound_of_no_requests (known : List String) (raw : JVal) (s : String)
    (hc : normContent (extractMessage raw) = JVal.str s)
    (htc : jfalsy (normToolCalls (extractMessage raw)) = true)
    (hrec : ((recover known s).2).isEmpty = true) :
    (stepRound known raw).1.content = JVal.str s ∧
    (stepRound known raw).2 = JVal.arr [] := by
  have hr := recover_of_empty hrec
  have htc0 : normToolCalls (extractMessage raw) = JVal.arr [] :=
    normToolCalls_eq_of_falsy htc
  have hpair : recoveredPair known (JVal.str s) (JVal.arr []) =
      (JVal.str s, JVal.arr []) := by
    simp [recoveredPair, hr, jfalsy]
  constructor
  · unfold stepRound
    rw [hc, htc0, hpair]
  · unfold stepRound
    rw [hc, htc0, hpair]

/-- C6 (amended): if the backend's first reply carries zero tool_calls and
non-empty string content, and the recovery pass synthesizes no call from
that content, the loop performs exactly one round, appends exactly one
assistant turn after the user turn, and returns that content. -/
theorem run_single_round_when_no_requests
    (tc : List (String × String))
    (ct : String → String → JVal → Except String (Option CallToolResult))
    (backend : Nat → JVal) (fuel : Nat) (q s : String)
    (hc : normContent (extractMessage (backend 0)) = JVal.str s)
    (hs : s ≠ "")
    (htc : jfalsy (normToolCalls (extractMessage (backend 0))) = true)
    (hrec : ((recover (tc.map Prod.fst) s).2).isEmpty = true) :
    run tc ct backend (fuel + 1) q =
      some (JVal.str s,
        (initMessages ++ [userTurn q]) ++ [(stepRound (tc.map Prod.fst) (backend 0)).1],
        1) ∧
    (stepRound (tc.map Prod.fst) (backend 0)).1.content = JVal.str s ∧
    (stepRound (tc.map Prod.fst) (backend 0)).1.role = "assistant" := by
  obtain ⟨h1, h2⟩ := stepRound_of_no_requests (tc.map Prod.fst) (backend 0) s hc htc hrec
  refine ⟨?_, h1, rfl⟩
  unfold run runLoop
  dsimp only
  rw [h2]
  simp only [jfalsy, List.isEmpty_nil, if_true]
  rw [h1]

def plainBackend : Nat → JVal :=
  fun _ => JVal.obj [("message", JVal.obj [("content", JVal.str "hello")])]

/-- C6 amended witness: a backend whose first reply has no tool_calls and
plain content "hello" gives one round and final answer "hello". -/
theorem run_single_round_when_no_requests_witness :
    run [] okCallTool plainBackend 1 "hi" =
      some (JVal.str "hello",
        (initMessages ++ [userTurn "hi"]) ++ [(stepRound [] (plainBackend 0)).1],
        1) :=
  (run_single_round_when_no_requests [] okCallTool plainBackend 0 "hi" "hello"
    rfl (by decide) rfl rfl).1

def cxContent : String := "\x7b\"name\": \"t\", \"arguments\": \x7b\x7d\x7d"

def cxBackend : Nat → JVal :=
  fun n =>
    if n == 0 then JVal.obj [("message", JVal.obj [("content", JVal.str cxContent)])]
    else JVal.obj [("message", JVal.obj [("content", JVal.str "done")])]

/-- C6 counterexample: the claim as stated fails on the code.  The first
reply carries zero structured tool_calls and non-empty content, yet the
recovery pass turns that content into a tool call, so the loop runs two
rounds, records two assistant turns (five messages in all), and returns
the second reply's content instead of the first. -/
theorem run_single_round_claim_counterexample :
    normToolCalls (extractMessage (cxBackend 0)) = JVal.arr [] ∧
    normContent (extractMessage (cxBackend 0)) = JVal.str cxContent ∧
    cxContent ≠ "" ∧
    (run sampleClients okCallTool cxBackend 3 "q").map (fun r => r.2.2) = some 2 ∧
    (run sampleClients okCallTool cxBackend 3 "q").map
      (fun r => r.2.1.map Turn.role) =
      some ["system", "user", "assistant", "tool", "assistant"] ∧
    (run sampleClients okCallTool cxBackend 3 "q").map (fun r => r.1) =
      some (JVal.str "done") :=
  ⟨rfl, rfl, by decide, rfl, rfl, rfl⟩

theorem runLoop_appends (tc : List (String × String))
    (ct : String → String → JVal → Except String (Option CallToolResult))
    (backend : Nat → JVal) :
    ∀ (fuel round : Nat) (msgs : List Turn) (res : JVal × List Turn × Nat),
      runLoop tc ct backend fuel round msgs = some res →
      ∃ tail, res.2.1 = msgs ++ tail := by
  intro fuel
  induction fuel with
  | zero => intro round msgs res h; exact absurd h (by simp [runLoop])
  | succ n ih =>
    intro round msgs res h
    unfold runLoop at h
    dsimp only at h
    by_cases hf : jfalsy (stepRound (tc.map Prod.fst) (backend round)).2 = true
    · rw [if_pos hf] at h
      cases h
      exact ⟨[(stepRound (tc.map Prod.fst) (backend round)).1], rfl⟩
    · rw [if_neg hf] at h
      obtain ⟨tail2, ht⟩ := ih (round + 1) _ res h
      exact ⟨[(stepRound (tc.map Prod.fst) (backend round)).1] ++
        executeToolCalls tc ct (jiterList (stepRound (tc.map Prod.fst) (backend round)).2) ++
        tail2, by rw [ht]; simp⟩

/-- C9: a fresh agent's log is exactly one system turn with the fixed
instruction text; the loop only ever appends to the log it is given; and
hence for any query and any backend, whenever run returns, the system turn
is still the first element of the final log. -/
theorem system_turn_stays_first :
    initMessages = [systemTurn] ∧
    (∀ (tc : List (String × String))
      (ct : String → String → JVal → Except String (Option CallToolResult))
      (backend : Nat → JVal) (fuel round : Nat) (msgs : List Turn)
      (res : JVal × List Turn × Nat),
      runLoop tc ct backend fuel round msgs = some res →
      ∃ tail, res.2.1 = msgs ++ tail) ∧
    (∀ (tc : List (String × String))
      (ct : String → String → JVal → Except String (Option CallToolResult))
      (backend : Nat → JVal) (fuel : Nat) (q : String)
      (res : JVal × List Turn × Nat),
      run tc ct backend fuel q = some res →
      res.2.1.head? = some systemTurn) := by
  refine ⟨rfl, ?_, ?_⟩
  · intro tc ct backend fuel round msgs res h
    exact runLoop_appends tc ct backend fuel round msgs res h
  · intro tc ct backend fuel q res h
    obtain ⟨tail, ht⟩ := runLoop_appends tc ct backend fuel 0
      (initMessages ++ [userTurn q]) res h
    rw [ht]
    rfl

/-- C9 witness: a concrete one-round session; the final log's head is the
system turn. -/
theorem system_turn_stays_first_witness :
    initMessages = [systemTurn] ∧
    ((run [] okCallTool plainBackend 1 "hi").getD default).2.1.head? = some systemTurn :=
  ⟨system_turn_stays_first.1,
    system_turn_stays_first.2.2 [] okCallTool plainBackend 1 "hi"
      ((run [] okCallTool plainBackend 1 "hi").getD default) rfl⟩
